import Mathlib

/-!
Verification development for `scripts/prepare-upload-assets.py` of the
ArtMint-Studio repository.

The script is a single-pass image pipeline: validate the decoded input
image, render two square "contain" renditions (mint and thumbnail),
encode both to WebP, hash files, and emit a JSON manifest on stdout.

Embedding conventions:
* Python `int` is modelled as `Int` (arbitrary precision), pixel counts
  read from a decoded image as `Nat` (PIL sizes are non-negative).
* The arithmetic of `render_square_contain` (`side / src_w`,
  `round(src_w * scale)`) is modelled over `ℚ` with Python 3's
  round-half-to-even semantics (`pyRound`); Python's float64 agrees with
  the exact rational value on all inputs of the sizes at play here.
* Python `//` (floor division) is `Int.fdiv`.
* Filesystem and PIL effects (directory creation, `Image.save`, file
  reads, `print`) are recorded as an explicit event trace; the decoded
  image and the encoded rendition bytes are parameters of the pipeline
  function, since decoding/encoding live in the Pillow library, not in
  this repository.
-/

namespace ArtMint

/-! ## Definitions -/

/-- Python 3 `round` on an exact rational value: round to the nearest
integer, ties to the even integer. -/
def pyRound (q : ℚ) : ℤ :=
  let f : ℤ := ⌊q⌋
  let frac : ℚ := q - f
  if frac < 1/2 then f
  else if 1/2 < frac then f + 1
  else if f % 2 = 0 then f else f + 1

/-- Geometry of the canvas produced by `render_square_contain`: the
canvas dimensions from `Image.new`, the resized inner image dimensions,
and the paste offsets. -/
structure Canvas where
  width : Int
  height : Int
  outW : Int
  outH : Int
  offsetX : Int
  offsetY : Int
deriving Repr, DecidableEq

/-- `scale = min(side / src_w, side / src_h)` (line 43). -/
def containScale (srcW srcH : ℕ) (side : ℤ) : ℚ :=
  min ((side : ℚ) / (srcW : ℚ)) ((side : ℚ) / (srcH : ℚ))

/-- `out_w = max(1, int(round(src_w * scale)))` (line 44). -/
def containOutW (srcW srcH : ℕ) (side : ℤ) : ℤ :=
  max 1 (pyRound ((srcW : ℚ) * containScale srcW srcH side))

/-- `out_h = max(1, int(round(src_h * scale)))` (line 45). -/
def containOutH (srcW srcH : ℕ) (side : ℤ) : ℤ :=
  max 1 (pyRound ((srcH : ℚ) * containScale srcW srcH side))

/-- `render_square_contain(src, side)` (lines 37–52): after converting
to RGBA (size-preserving), raise `ValueError("Invalid source
dimensions")` when a source dimension is zero; otherwise scale by
`min(side / src_w, side / src_h)`, round each output dimension to the
nearest integer (floored at 1), and paste centered at integer offsets
`(side - out_w) // 2`, `(side - out_h) // 2` on a transparent
`side × side` canvas. -/
def render_square_contain (srcW srcH : ℕ) (side : ℤ) : Except String Canvas :=
  if srcW = 0 ∨ srcH = 0 then .error "Invalid source dimensions"
  else
    let outW : ℤ := containOutW srcW srcH side
    let outH : ℤ := containOutH srcW srcH side
    .ok { width := side, height := side, outW := outW, outH := outH,
          offsetX := (side - outW).fdiv 2, offsetY := (side - outH).fdiv 2 }

def w32 (x : ℕ) : ℕ := x % 2 ^ 32

def rotr32 (n x : ℕ) : ℕ := w32 ((x >>> n) ||| (x <<< (32 - n)))

def bnot32 (x : ℕ) : ℕ := x ^^^ (2 ^ 32 - 1)

def shaCh (x y z : ℕ) : ℕ := (x &&& y) ^^^ (bnot32 x &&& z)

def shaMaj (x y z : ℕ) : ℕ := (x &&& y) ^^^ (x &&& z) ^^^ (y &&& z)

def bigSigma0 (x : ℕ) : ℕ := rotr32 2 x ^^^ rotr32 13 x ^^^ rotr32 22 x

def bigSigma1 (x : ℕ) : ℕ := rotr32 6 x ^^^ rotr32 11 x ^^^ rotr32 25 x

def smallSigma0 (x : ℕ) : ℕ := rotr32 7 x ^^^ rotr32 18 x ^^^ (x >>> 3)

def smallSigma1 (x : ℕ) : ℕ := rotr32 17 x ^^^ rotr32 19 x ^^^ (x >>> 10)

def shaK : List ℕ :=
  [1116352408, 1899447441, 3049323471, 3921009573, 961987163, 1508970993, 2453635748, 2870763221,
   3624381080, 310598401, 607225278, 1426881987, 1925078388, 2162078206, 2614888103, 3248222580,
   3835390401, 4022224774, 264347078, 604807628, 770255983, 1249150122, 1555081692, 1996064986,
   2554220882, 2821834349, 2952996808, 3210313671, 3336571891, 3584528711, 113926993, 338241895,
   666307205, 773529912, 1294757372, 1396182291, 1695183700, 1986661051, 2177026350, 2456956037,
   2730485921, 2820302411, 3259730800, 3345764771, 3516065817, 3600352804, 4094571909, 275423344,
   430227734, 506948616, 659060556, 883997877, 958139571, 1322822218, 1537002063, 1747873779,
   1955562222, 2024104815, 2227730452, 2361852424, 2428436474, 2756734187, 3204031479, 3329325298]

/-- The eight 32-bit working variables of the SHA-256 compression. -/
structure Regs where
  a : ℕ
  b : ℕ
  c : ℕ
  d : ℕ
  e : ℕ
  f : ℕ
  g : ℕ
  h : ℕ
deriving Repr, DecidableEq

def sha256Init : Regs :=
  ⟨1779033703, 3144134277, 1013904242, 2773480762,
   1359893119, 2600822924, 528734635, 1541459225⟩

/-- Big-endian byte encoding of `x`, exactly `n` bytes (low bytes of `x`). -/
def toBytesBE (n x : ℕ) : List ℕ :=
  match n with
  | 0 => []
  | m + 1 => toBytesBE m (x / 256) ++ [x % 256]

/-- Split a list into consecutive chunks of size `n` (the last chunk may
be shorter); mirrors repeatedly calling `f.read(n)` until empty. -/
def chunksOf (n : ℕ) (l : List α) : List (List α) :=
  if _hn : n = 0 then []
  else match l with
    | [] => []
    | x :: xs => (x :: xs).take n :: chunksOf n ((x :: xs).drop n)
termination_by l.length
decreasing_by
  simp only [List.length_drop, List.length_cons]
  omega

/-- Big-endian 32-bit words from a byte list. -/
def toWordsBE (bytes : List ℕ) : List ℕ :=
  (chunksOf 4 bytes).map (fun c => c.foldl (fun acc b => acc * 256 + b) 0)

/-- Message-schedule extension: append `count` further words. -/
def extendW (ws : List ℕ) : ℕ → List ℕ
  | 0 => ws
  | n + 1 =>
    let prev := extendW ws n
    let m := prev.length
    prev ++ [w32 (smallSigma1 (prev.getD (m - 2) 0) + prev.getD (m - 7) 0 +
                  smallSigma0 (prev.getD (m - 15) 0) + prev.getD (m - 16) 0)]

def compressStep (r : Regs) (kw : ℕ × ℕ) : Regs :=
  let t1 := w32 (r.h + bigSigma1 r.e + shaCh r.e r.f r.g + kw.1 + kw.2)
  let t2 := w32 (bigSigma0 r.a + shaMaj r.a r.b r.c)
  ⟨w32 (t1 + t2), r.a, r.b, r.c, w32 (r.d + t1), r.e, r.f, r.g⟩

def processBlock (H : Regs) (block : List ℕ) : Regs :=
  let ws := extendW (toWordsBE block) 48
  let r := (shaK.zip ws).foldl compressStep H
  ⟨w32 (H.a + r.a), w32 (H.b + r.b), w32 (H.c + r.c), w32 (H.d + r.d),
   w32 (H.e + r.e), w32 (H.f + r.f), w32 (H.g + r.g), w32 (H.h + r.h)⟩

/-- SHA-256 padding: `0x80`, zeros to 56 mod 64, then the 8-byte
big-endian bit length. -/
def shaPad (msg : List ℕ) : List ℕ :=
  msg ++ [128] ++ List.replicate ((64 + 55 - msg.length % 64) % 64) 0 ++
    toBytesBE 8 (8 * msg.length)

/-- The 32-byte SHA-256 digest of a byte sequence. -/
def sha256Bytes (msg : List ℕ) : List ℕ :=
  let fin := (chunksOf 64 (shaPad msg)).foldl processBlock sha256Init
  toBytesBE 4 fin.a ++ toBytesBE 4 fin.b ++ toBytesBE 4 fin.c ++ toBytesBE 4 fin.d ++
    toBytesBE 4 fin.e ++ toBytesBE 4 fin.f ++ toBytesBE 4 fin.g ++ toBytesBE 4 fin.h

/-- Lowercase hexadecimal digit. -/
def hexChar : ℕ → Char
  | 0 => '0' | 1 => '1' | 2 => '2' | 3 => '3'
  | 4 => '4' | 5 => '5' | 6 => '6' | 7 => '7'
  | 8 => '8' | 9 => '9' | 10 => 'a' | 11 => 'b'
  | 12 => 'c' | 13 => 'd' | 14 => 'e' | 15 => 'f'
  | _ => '0'

/-- Two lowercase hex characters per byte, as `bytes.hex()` /
`hexdigest()` produce. -/
def bytesToHex (bs : List ℕ) : String :=
  ⟨bs.foldr (fun b acc => hexChar (b / 16 % 16) :: hexChar (b % 16) :: acc) []⟩

/-- `hashlib.sha256(data).hexdigest()`. -/
def sha256Hexdigest (msg : List ℕ) : String := bytesToHex (sha256Bytes msg)

/-- `sha256_hex(path)` (lines 26–34): stream the file in fixed 1 MiB
chunks through a SHA-256 context — `update` appends the chunk to the
absorbed byte stream — and return `hexdigest()`. The file stands in for
its byte contents. -/
def sha256_hex (file : List ℕ) : String :=
  sha256Hexdigest ((chunksOf (1024 * 1024) file).foldl (fun acc chunk => acc ++ chunk) [])

/-- A JSON value as assembled by the script (strings, Python ints, the
float literal `0.85` as an exact rational, and objects with
insertion-ordered fields). -/
inductive JVal where
  | jstr (s : String)
  | jint (n : ℤ)
  | jrat (q : ℚ)
  | jobj (fields : List (String × JVal))

/-- Ordered-dict key lookup. -/
def lookupJ (fields : List (String × JVal)) (k : String) : Option JVal :=
  match fields with
  | [] => none
  | (k', v) :: rest => if k' = k then some v else lookupJ rest k

/-- Follow a key path into nested JSON objects. -/
def jget (v : JVal) (path : List String) : Option JVal :=
  match path with
  | [] => some v
  | k :: ks =>
    match v with
    | .jobj fields =>
      match lookupJ fields k with
      | some v' => jget v' ks
      | none => none
    | _ => none

/-- Python `str.upper()` on one ASCII character. -/
def pyCharUpper (c : Char) : Char :=
  if 'a' ≤ c ∧ c ≤ 'z' then Char.ofNat (c.toNat - 32) else c

/-- Python `str.upper()` (ASCII model; PIL format tags are ASCII). -/
def pyUpper (s : String) : String := ⟨s.data.map pyCharUpper⟩

/-- `os.path.basename` on a POSIX path: the part after the last `/`. -/
def pyBasename (p : String) : String :=
  ⟨(p.data.reverse.takeWhile (fun c => c != '/')).reverse⟩

/-- Index of the last occurrence of `c`, if any. -/
def rfindIdx (c : Char) (cs : List Char) : Option ℕ :=
  match cs.reverse.findIdx? (fun x => x == c) with
  | none => none
  | some i => some (cs.length - 1 - i)

/-- The stem part of `os.path.splitext` applied to a bare filename (no
directory separators): split at the last dot, but only when some
character before that dot is not itself a dot (so dotfiles such as
`.bashrc` keep their name whole). -/
def splitextStem (s : String) : String :=
  match rfindIdx '.' s.data with
  | none => s
  | some i => if (s.data.take i).any (fun c => c != '.') then ⟨s.data.take i⟩ else s

/-- The ASCII whitespace stripped by Python's `str.strip()`. -/
def isPySpace (c : Char) : Bool :=
  c == ' ' || c == '\t' || c == '\n' || c == '\r' || c == Char.ofNat 11 || c == Char.ofNat 12

/-- Python `str.strip()` (restricted to ASCII whitespace). -/
def pyStrip (s : String) : String :=
  ⟨((s.data.dropWhile isPySpace).reverse.dropWhile isPySpace).reverse⟩

/-- `MAX_MINT_DIM` (line 16). -/
def MAX_MINT_DIM : ℤ := 4096

/-- `MAX_THUMB_DIM` (line 17). -/
def MAX_THUMB_DIM : ℤ := 512

/-- `ALLOWED_MIME` (lines 18–23), as the insertion-ordered pairs of the
Python dict. -/
def ALLOWED_MIME : List (String × String) :=
  [("JPEG", "image/jpeg"), ("PNG", "image/png"),
   ("WEBP", "image/webp"), ("GIF", "image/gif")]

/-- The message of the `ValueError` raised for an unsupported format
(line 72), including the `or "unknown"` fallback for an empty tag. -/
def unsupportedFormatMsg (fmt : String) : String :=
  "Unsupported input format: " ++ (if fmt = "" then "unknown" else fmt)

/-- The message of the `ValueError` raised for non-positive dimensions
(lines 41 and 76). -/
def invalidDimensionsMsg : String := "Invalid source dimensions"

/-- The parsed command-line arguments (lines 56–62). -/
structure Args where
  input : String
  outDir : String
  mintMaxSide : ℤ
  thumbMaxSide : ℤ
  quality : ℤ

/-- The image as decoded by `Image.open`: declared format tag (PIL may
report none) and pixel dimensions. -/
structure PILImage where
  format : Option String
  width : ℕ
  height : ℕ

/-- One `Image.save(path, format=..., quality=...)` call, together with
the dimensions of the image being saved. -/
structure SaveCall where
  path : String
  format : String
  quality : ℤ
  imgWidth : ℤ
  imgHeight : ℤ
deriving Repr, DecidableEq

/-- Filesystem/console effects of a run, in program order. -/
inductive Event where
  | mkdirs (path : String)
  | save (call : SaveCall)
  | readFile (path : String)
  | printLine (v : JVal)

/-- `os.path.abspath`, modelled as the identity on an already-resolved
path string (working-directory resolution is outside the program). -/
def absPath (p : String) : String := p

/-- `os.path.join(dir, name)` for a simple name component. -/
def pathJoin (dir name : String) : String := dir ++ "/" ++ name

/-- The `meta` dict (lines 97–130), in insertion order, with `title`
appended only when the stripped stem is non-empty. -/
def buildMeta (inputPath mime : String) (originalBytes mintBytes thumbBytes : List ℕ)
    (w h : ℕ) (mintSide thumbSide : ℤ) (now : String) : List (String × JVal) :=
  let meta : List (String × JVal) :=
    [("description", .jstr "ArtMint upload smoke test"),
     ("original", .jobj
       [("filename", .jstr (pyBasename inputPath)),
        ("mime", .jstr mime),
        ("bytes", .jint originalBytes.length),
        ("width", .jint w),
        ("height", .jint h),
        ("sha256", .jstr (sha256Hexdigest originalBytes))]),
     ("mint", .jobj
       [("mime", .jstr "image/webp"),
        ("bytes", .jint mintBytes.length),
        ("width", .jint mintSide),
        ("height", .jint mintSide),
        ("maxSide", .jint mintSide),
        ("fit", .jstr "contain"),
        ("format", .jstr "webp"),
        ("quality", .jrat 0.85)]),
     ("thumbnail", .jobj
       [("mime", .jstr "image/webp"),
        ("bytes", .jint thumbBytes.length),
        ("width", .jint thumbSide),
        ("height", .jint thumbSide),
        ("maxSide", .jint thumbSide)]),
     ("createdAt", .jstr now),
     ("appVersion", .jstr "smoke-test")]
  let stem := pyStrip (splitextStem (pyBasename inputPath))
  if stem = "" then meta else meta ++ [("title", .jstr stem)]

/-- The `files` dict (lines 133–141). -/
def buildFiles (inputPath outDir mintPath thumbPath : String) : List (String × JVal) :=
  [("tempDir", .jstr outDir),
   ("originalPath", .jstr inputPath),
   ("mintPath", .jstr mintPath),
   ("thumbnailPath", .jstr thumbPath),
   ("originalFilename", .jstr (pyBasename inputPath)),
   ("mintFilename", .jstr "mint.webp"),
   ("thumbnailFilename", .jstr "thumb.webp")]

/-- The `result` dict printed on success (lines 132–143): `files` and
`meta`, with the rendition sides `min(max_side_flag, max(w, h))`. -/
def successResult (args : Args) (img : PILImage)
    (originalBytes mintBytes thumbBytes : List ℕ) (now mime : String) :
    List (String × JVal) :=
  let inputPath := absPath args.input
  let outDir := absPath args.outDir
  let maxSideSrc : ℤ := ((max img.width img.height : ℕ) : ℤ)
  let mintSide := min args.mintMaxSide maxSideSrc
  let thumbSide := min args.thumbMaxSide maxSideSrc
  [("files", .jobj (buildFiles inputPath outDir (pathJoin outDir "mint.webp")
      (pathJoin outDir "thumb.webp"))),
   ("meta", .jobj (buildMeta inputPath mime originalBytes mintBytes thumbBytes
      img.width img.height mintSide thumbSide now))]

/-- `main()` (lines 55–146). The decoded image, the bytes of the three
files as read back, and the timestamp are parameters: decoding,
encoding and the clock live outside the script. Returns the event trace
and either the printed JSON document or the raised error message. -/
def pyMain (args : Args) (img : PILImage)
    (originalBytes mintBytes thumbBytes : List ℕ) (now : String) :
    List Event × Except String (List (String × JVal)) :=
  let inputPath := absPath args.input
  let outDir := absPath args.outDir
  let fmt := pyUpper (img.format.getD "")
  match List.lookup fmt ALLOWED_MIME with
  | none => ([.mkdirs outDir], .error (unsupportedFormatMsg fmt))
  | some mime =>
    if img.width < 1 ∨ img.height < 1 then
      ([.mkdirs outDir], .error invalidDimensionsMsg)
    else
      let maxSideSrc : ℤ := ((max img.width img.height : ℕ) : ℤ)
      let mintSide := min args.mintMaxSide maxSideSrc
      let thumbSide := min args.thumbMaxSide maxSideSrc
      match render_square_contain img.width img.height mintSide,
            render_square_contain img.width img.height thumbSide with
      | .error e, _ => ([.mkdirs outDir], .error e)
      | .ok _, .error e => ([.mkdirs outDir], .error e)
      | .ok mintImg, .ok thumbImg =>
        let mintPath := pathJoin outDir "mint.webp"
        let thumbPath := pathJoin outDir "thumb.webp"
        let result := successResult args img originalBytes mintBytes thumbBytes now mime
        ([.mkdirs outDir,
          .save ⟨mintPath, "WEBP", args.quality, mintImg.width, mintImg.height⟩,
          .save ⟨thumbPath, "WEBP", args.quality, thumbImg.width, thumbImg.height⟩,
          .readFile inputPath, .readFile mintPath, .readFile thumbPath,
          .printLine (.jobj result)], .ok result)

/-- Exit code and console output of one process run. -/
structure ProcOutcome where
  exitCode : ℤ
  stdout : List JVal
  stderr : List String

/-- The JSON documents printed to standard output during a trace. -/
def stdoutOf (events : List Event) : List JVal :=
  events.filterMap (fun e => match e with | .printLine v => some v | _ => none)

/-- The process as a whole: the import guard (lines 9–13, exit code 2
before any work) and the `__main__` block (lines 149–154): on success
`SystemExit(0)`; an exception is printed to stderr and re-raised, which
terminates the interpreter with exit code 1. -/
def runScript (pillowOk : Bool) (pillowErr : String) (args : Args) (img : PILImage)
    (originalBytes mintBytes thumbBytes : List ℕ) (now : String) : ProcOutcome :=
  if pillowOk = false then
    { exitCode := 2, stdout := [],
      stderr := ["Failed to import Pillow (PIL): " ++ pillowErr] }
  else
    let run := pyMain args img originalBytes mintBytes thumbBytes now
    match run.2 with
    | .ok _ => { exitCode := 0, stdout := stdoutOf run.1, stderr := [] }
    | .error e => { exitCode := 1, stdout := stdoutOf run.1, stderr := [e] }


/-- The lowercase hexadecimal alphabet. -/
def hexDigits : List Char := ("0123456789abcdef").data

/-- The `Image.save` calls of a trace, in order. -/
def savesOf (events : List Event) : List SaveCall :=
  events.filterMap (fun e => match e with | .save c => some c | _ => none)

/-- Sample command line used to instantiate theorems at a concrete run. -/
def sampleArgs : Args := ⟨"a.png", "out", 4096, 512, 85⟩

/-- Sample decoded image: a 2 × 1 PNG. -/
def sampleImg : PILImage := ⟨some "PNG", 2, 1⟩

/-- Sample decoded image with an unsupported format and a zero width. -/
def sampleBadImg : PILImage := ⟨some "BMP", 0, 5⟩

/-! ## Theorems -/

theorem pyRound_intCast (n : ℤ) : pyRound (n : ℚ) = n := by
  simp [pyRound]

theorem pyRound_le_of_le {q : ℚ} {n : ℤ} (h : q ≤ n) : pyRound q ≤ n := by
  have hfl : ⌊q⌋ ≤ n := by
    have := Int.floor_le_floor h
    simpa using this
  rcases lt_or_eq_of_le hfl with hlt | heq
  · unfold pyRound
    dsimp only
    split
    · exact hfl
    · split
      · omega
      · split
        · exact hfl
        · omega
  · -- ⌊q⌋ = n together with q ≤ n forces q = n, so the fractional part is 0
    have hq : q = (n : ℚ) := by
      have h1 : (n : ℚ) ≤ q := by
        rw [← heq]; exact Int.floor_le q
      exact le_antisymm h h1
    rw [hq, pyRound_intCast]

theorem render_square_contain_eq_ok (srcW srcH : ℕ) (side : ℤ)
    (hw : srcW ≠ 0) (hh : srcH ≠ 0) :
    render_square_contain srcW srcH side =
      .ok { width := side, height := side,
            outW := containOutW srcW srcH side,
            outH := containOutH srcW srcH side,
            offsetX := (side - containOutW srcW srcH side).fdiv 2,
            offsetY := (side - containOutH srcW srcH side).fdiv 2 } := by
  simp [render_square_contain, hw, hh]

theorem containScale_le_left (srcW srcH : ℕ) (side : ℤ) :
    containScale srcW srcH side ≤ (side : ℚ) / (srcW : ℚ) :=
  min_le_left _ _

theorem containScale_le_right (srcW srcH : ℕ) (side : ℤ) :
    containScale srcW srcH side ≤ (side : ℚ) / (srcH : ℚ) :=
  min_le_right _ _

theorem mul_containScale_le {srcW srcH : ℕ} {side : ℤ}
    (hw : 1 ≤ srcW) : (srcW : ℚ) * containScale srcW srcH side ≤ (side : ℚ) := by
  have hw0 : (0 : ℚ) < (srcW : ℚ) := by exact_mod_cast Nat.pos_of_ne_zero (by omega)
  have h1 : (srcW : ℚ) * containScale srcW srcH side ≤
      (srcW : ℚ) * ((side : ℚ) / (srcW : ℚ)) :=
    mul_le_mul_of_nonneg_left (containScale_le_left srcW srcH side) hw0.le
  have h2 : (srcW : ℚ) * ((side : ℚ) / (srcW : ℚ)) = (side : ℚ) := by
    field_simp
  rw [h2] at h1
  exact h1

theorem mul_containScale_le' {srcW srcH : ℕ} {side : ℤ}
    (hh : 1 ≤ srcH) : (srcH : ℚ) * containScale srcW srcH side ≤ (side : ℚ) := by
  have hh0 : (0 : ℚ) < (srcH : ℚ) := by exact_mod_cast Nat.pos_of_ne_zero (by omega)
  have h1 : (srcH : ℚ) * containScale srcW srcH side ≤
      (srcH : ℚ) * ((side : ℚ) / (srcH : ℚ)) :=
    mul_le_mul_of_nonneg_left (containScale_le_right srcW srcH side) hh0.le
  have h2 : (srcH : ℚ) * ((side : ℚ) / (srcH : ℚ)) = (side : ℚ) := by
    field_simp
  rw [h2] at h1
  exact h1

theorem containOutW_le {srcW srcH : ℕ} {side : ℤ}
    (hw : 1 ≤ srcW) (hs : 1 ≤ side) : containOutW srcW srcH side ≤ side :=
  max_le hs (pyRound_le_of_le (mul_containScale_le hw))

theorem containOutH_le {srcW srcH : ℕ} {side : ℤ}
    (hh : 1 ≤ srcH) (hs : 1 ≤ side) : containOutH srcW srcH side ≤ side :=
  max_le hs (pyRound_le_of_le (mul_containScale_le' hh))

theorem one_le_containOutW (srcW srcH : ℕ) (side : ℤ) :
    1 ≤ containOutW srcW srcH side := le_max_left _ _

theorem one_le_containOutH (srcW srcH : ℕ) (side : ℤ) :
    1 ≤ containOutH srcW srcH side := le_max_left _ _

/-- When the width is the (weakly) longer axis, the scale factor is
exactly `side / srcW`, so the rounded output width is exactly `side`. -/
theorem containOutW_eq_side {srcW srcH : ℕ} {side : ℤ}
    (hw : 1 ≤ srcW) (hh : 1 ≤ srcH) (hs : 1 ≤ side) (hwh : srcH ≤ srcW) :
    containOutW srcW srcH side = side := by
  have hh0 : (0 : ℚ) < (srcH : ℚ) := by exact_mod_cast Nat.pos_of_ne_zero (by omega)
  have hs0 : (0 : ℚ) ≤ (side : ℚ) := by exact_mod_cast (by omega : (0 : ℤ) ≤ side)
  have hmin : containScale srcW srcH side = (side : ℚ) / (srcW : ℚ) := by
    apply min_eq_left
    exact div_le_div_of_nonneg_left hs0 hh0 (by exact_mod_cast hwh)
  have hmul : (srcW : ℚ) * containScale srcW srcH side = ((side : ℤ) : ℚ) := by
    rw [hmin]; field_simp
  rw [containOutW, hmul, pyRound_intCast]
  omega

theorem containOutH_eq_side {srcW srcH : ℕ} {side : ℤ}
    (hw : 1 ≤ srcW) (hh : 1 ≤ srcH) (hs : 1 ≤ side) (hwh : srcW ≤ srcH) :
    containOutH srcW srcH side = side := by
  have hw0 : (0 : ℚ) < (srcW : ℚ) := by exact_mod_cast Nat.pos_of_ne_zero (by omega)
  have hs0 : (0 : ℚ) ≤ (side : ℚ) := by exact_mod_cast (by omega : (0 : ℤ) ≤ side)
  have hmin : containScale srcW srcH side = (side : ℚ) / (srcH : ℚ) := by
    apply min_eq_right
    exact div_le_div_of_nonneg_left hs0 hw0 (by exact_mod_cast hwh)
  have hmul : (srcH : ℚ) * containScale srcW srcH side = ((side : ℤ) : ℚ) := by
    rw [hmin]; field_simp
  rw [containOutH, hmul, pyRound_intCast]
  omega

/-- Floor division by 2 together with its remainder. -/
theorem fdiv2_spec (d : ℤ) :
    2 * d.fdiv 2 + d.fmod 2 = d ∧ 0 ≤ d.fmod 2 ∧ d.fmod 2 < 2 :=
  ⟨Int.fdiv_add_fmod d 2,
   Int.fmod_nonneg' d (by norm_num), Int.fmod_lt_of_pos d (by norm_num)⟩

/-- C2: for every source image with positive dimensions and every
positive side length `S`, the image returned by the square-contain
resizer is exactly `S × S` pixels, regardless of the source's aspect
ratio. -/
theorem square_contain_output_is_square (srcW srcH : ℕ) (side : ℤ)
    (hw : 1 ≤ srcW) (hh : 1 ≤ srcH) (hs : 1 ≤ side) (c : Canvas)
    (hc : render_square_contain srcW srcH side = .ok c) :
    c.width = side ∧ c.height = side := by
  rw [render_square_contain_eq_ok srcW srcH side (by omega) (by omega)] at hc
  simp only [Except.ok.injEq] at hc
  subst hc
  exact ⟨rfl, rfl⟩

theorem square_contain_output_is_square_witness :
    (1 ≤ 3 ∧ 1 ≤ 2 ∧ (1 : ℤ) ≤ 5 ∧
      render_square_contain 3 2 5 =
        .ok ⟨5, 5, 5, 3, 0, 1⟩) ∧
    (Canvas.width ⟨5, 5, 5, 3, 0, 1⟩ = 5 ∧ Canvas.height ⟨5, 5, 5, 3, 0, 1⟩ = 5) :=
  ⟨⟨by decide, by decide, by decide, (by
    norm_num [render_square_contain, containOutW, containOutH, containScale, pyRound,
      min_def, Int.fdiv])⟩,
   square_contain_output_is_square 3 2 5 (by decide) (by decide) (by decide)
     ⟨5, 5, 5, 3, 0, 1⟩ (by
    norm_num [render_square_contain, containOutW, containOutH, containScale, pyRound,
      min_def, Int.fdiv])⟩

/-- C8: the resized inner image is pasted at integer offsets
`((S - out_w) // 2, (S - out_h) // 2)`, so the left and right padding
widths differ by at most 1 pixel, and likewise the top and bottom
padding heights. -/
theorem square_contain_padding_symmetric (srcW srcH : ℕ) (side : ℤ)
    (hw : 1 ≤ srcW) (hh : 1 ≤ srcH) (hs : 1 ≤ side) (c : Canvas)
    (hc : render_square_contain srcW srcH side = .ok c) :
    c.offsetX = (side - c.outW).fdiv 2 ∧
    c.offsetY = (side - c.outH).fdiv 2 ∧
    |c.offsetX - (side - c.outW - c.offsetX)| ≤ 1 ∧
    |c.offsetY - (side - c.outH - c.offsetY)| ≤ 1 := by
  rw [render_square_contain_eq_ok srcW srcH side (by omega) (by omega)] at hc
  simp only [Except.ok.injEq] at hc
  subst hc
  refine ⟨rfl, rfl, ?_, ?_⟩
  · have h := fdiv2_spec (side - containOutW srcW srcH side)
    rw [abs_le]
    constructor <;> simp only [Canvas.offsetX, Canvas.outW] <;> omega
  · have h := fdiv2_spec (side - containOutH srcW srcH side)
    rw [abs_le]
    constructor <;> simp only [Canvas.offsetY, Canvas.outH] <;> omega

theorem square_contain_padding_symmetric_witness :
    (1 ≤ 4 ∧ 1 ≤ 1 ∧ (1 : ℤ) ≤ 3 ∧
      render_square_contain 4 1 3 = .ok ⟨3, 3, 3, 1, 0, 1⟩) ∧
    (Canvas.offsetX ⟨3, 3, 3, 1, 0, 1⟩ = ((3 : ℤ) - 3).fdiv 2 ∧
     Canvas.offsetY ⟨3, 3, 3, 1, 0, 1⟩ = ((3 : ℤ) - 1).fdiv 2 ∧
     |Canvas.offsetX ⟨3, 3, 3, 1, 0, 1⟩ -
       (3 - Canvas.outW ⟨3, 3, 3, 1, 0, 1⟩ - Canvas.offsetX ⟨3, 3, 3, 1, 0, 1⟩)| ≤ 1 ∧
     |Canvas.offsetY ⟨3, 3, 3, 1, 0, 1⟩ -
       (3 - Canvas.outH ⟨3, 3, 3, 1, 0, 1⟩ - Canvas.offsetY ⟨3, 3, 3, 1, 0, 1⟩)| ≤ 1) :=
  ⟨⟨by decide, by decide, by decide, (by
    norm_num [render_square_contain, containOutW, containOutH, containScale, pyRound,
      min_def, Int.fdiv])⟩,
   square_contain_padding_symmetric 4 1 3 (by decide) (by decide) (by decide)
     ⟨3, 3, 3, 1, 0, 1⟩ (by
    norm_num [render_square_contain, containOutW, containOutH, containScale, pyRound,
      min_def, Int.fdiv])⟩

/-- C10: the inner dimensions satisfy `1 ≤ out ≤ S`, both paste offsets
are non-negative and the resized image lies entirely within the
`S × S` canvas, and along the source's (weakly) longer axis the output
dimension is exactly `S` with offset 0. -/
theorem square_contain_inner_bounds (srcW srcH : ℕ) (side : ℤ)
    (hw : 1 ≤ srcW) (hh : 1 ≤ srcH) (hs : 1 ≤ side) (c : Canvas)
    (hc : render_square_contain srcW srcH side = .ok c) :
    (1 ≤ c.outW ∧ c.outW ≤ side) ∧ (1 ≤ c.outH ∧ c.outH ≤ side) ∧
    (0 ≤ c.offsetX ∧ c.offsetX + c.outW ≤ side) ∧
    (0 ≤ c.offsetY ∧ c.offsetY + c.outH ≤ side) ∧
    (srcH ≤ srcW → c.outW = side ∧ c.offsetX = 0) ∧
    (srcW ≤ srcH → c.outH = side ∧ c.offsetY = 0) := by
  rw [render_square_contain_eq_ok srcW srcH side (by omega) (by omega)] at hc
  simp only [Except.ok.injEq] at hc
  subst hc
  have hW1 := one_le_containOutW srcW srcH side
  have hH1 := one_le_containOutH srcW srcH side
  have hWle : containOutW srcW srcH side ≤ side := containOutW_le hw hs
  have hHle : containOutH srcW srcH side ≤ side := containOutH_le hh hs
  have hdW := fdiv2_spec (side - containOutW srcW srcH side)
  have hdH := fdiv2_spec (side - containOutH srcW srcH side)
  refine ⟨⟨hW1, hWle⟩, ⟨hH1, hHle⟩, ⟨?_, ?_⟩, ⟨?_, ?_⟩, ?_, ?_⟩
  · simp only [Canvas.offsetX]; omega
  · simp only [Canvas.offsetX, Canvas.outW]; omega
  · simp only [Canvas.offsetY]; omega
  · simp only [Canvas.offsetY, Canvas.outH]; omega
  · intro hwh
    have hWeq := containOutW_eq_side hw hh hs hwh
    constructor
    · simpa using hWeq
    · simp only [Canvas.offsetX, hWeq]
      simp
  · intro hwh
    have hHeq := containOutH_eq_side hw hh hs hwh
    constructor
    · simpa using hHeq
    · simp only [Canvas.offsetY, hHeq]
      simp

theorem square_contain_inner_bounds_witness :
    (1 ≤ 2 ∧ 1 ≤ 7 ∧ (1 : ℤ) ≤ 4 ∧
      render_square_contain 2 7 4 = .ok ⟨4, 4, 1, 4, 1, 0⟩) ∧
    ((1 ≤ Canvas.outW ⟨4, 4, 1, 4, 1, 0⟩ ∧ Canvas.outW ⟨4, 4, 1, 4, 1, 0⟩ ≤ 4) ∧
     (1 ≤ Canvas.outH ⟨4, 4, 1, 4, 1, 0⟩ ∧ Canvas.outH ⟨4, 4, 1, 4, 1, 0⟩ ≤ 4) ∧
     (0 ≤ Canvas.offsetX ⟨4, 4, 1, 4, 1, 0⟩ ∧
       Canvas.offsetX ⟨4, 4, 1, 4, 1, 0⟩ + Canvas.outW ⟨4, 4, 1, 4, 1, 0⟩ ≤ 4) ∧
     (0 ≤ Canvas.offsetY ⟨4, 4, 1, 4, 1, 0⟩ ∧
       Canvas.offsetY ⟨4, 4, 1, 4, 1, 0⟩ + Canvas.outH ⟨4, 4, 1, 4, 1, 0⟩ ≤ 4) ∧
     (7 ≤ 2 → Canvas.outW ⟨4, 4, 1, 4, 1, 0⟩ = 4 ∧ Canvas.offsetX ⟨4, 4, 1, 4, 1, 0⟩ = 0) ∧
     (2 ≤ 7 → Canvas.outH ⟨4, 4, 1, 4, 1, 0⟩ = 4 ∧ Canvas.offsetY ⟨4, 4, 1, 4, 1, 0⟩ = 0)) :=
  ⟨⟨by decide, by decide, by decide, (by
    norm_num [render_square_contain, containOutW, containOutH, containScale, pyRound,
      min_def, Int.fdiv])⟩,
   square_contain_inner_bounds 2 7 4 (by decide) (by decide) (by decide)
     ⟨4, 4, 1, 4, 1, 0⟩ (by
    norm_num [render_square_contain, containOutW, containOutH, containScale, pyRound,
      min_def, Int.fdiv])⟩


theorem pyMain_success (args : Args) (img : PILImage)
    (oB mB tB : List ℕ) (now mime : String)
    (hm : List.lookup (pyUpper (img.format.getD "")) ALLOWED_MIME = some mime)
    (hw : 1 ≤ img.width) (hh : 1 ≤ img.height) :
    pyMain args img oB mB tB now =
      ([.mkdirs (absPath args.outDir),
        .save ⟨pathJoin (absPath args.outDir) "mint.webp", "WEBP", args.quality,
          min args.mintMaxSide ((max img.width img.height : ℕ) : ℤ),
          min args.mintMaxSide ((max img.width img.height : ℕ) : ℤ)⟩,
        .save ⟨pathJoin (absPath args.outDir) "thumb.webp", "WEBP", args.quality,
          min args.thumbMaxSide ((max img.width img.height : ℕ) : ℤ),
          min args.thumbMaxSide ((max img.width img.height : ℕ) : ℤ)⟩,
        .readFile (absPath args.input),
        .readFile (pathJoin (absPath args.outDir) "mint.webp"),
        .readFile (pathJoin (absPath args.outDir) "thumb.webp"),
        .printLine (.jobj (successResult args img oB mB tB now mime))],
       .ok (successResult args img oB mB tB now mime)) := by
  have hnot : ¬(img.width < 1 ∨ img.height < 1) := by omega
  have hmint := render_square_contain_eq_ok img.width img.height
    (min args.mintMaxSide ((max img.width img.height : ℕ) : ℤ)) (by omega) (by omega)
  have hthumb := render_square_contain_eq_ok img.width img.height
    (min args.thumbMaxSide ((max img.width img.height : ℕ) : ℤ)) (by omega) (by omega)
  simp only [pyMain, hm, if_neg hnot, hmint, hthumb]

/-- The two raised `ValueError` messages are distinct strings, whatever
the format tag is. -/
theorem unsupportedFormatMsg_ne (fmt : String) :
    unsupportedFormatMsg fmt ≠ invalidDimensionsMsg := by
  unfold unsupportedFormatMsg invalidDimensionsMsg
  intro h
  have h2 := congrArg String.length h
  rw [String.length_append] at h2
  have e1 : ("Unsupported input format: ").length = 26 := by decide
  have e2 : ("Invalid source dimensions").length = 25 := by decide
  omega

theorem foldl_append_eq_join {α : Type} (xs : List (List α)) (acc : List α) :
    xs.foldl (fun a c => a ++ c) acc = acc ++ xs.flatten := by
  induction xs generalizing acc with
  | nil => simp
  | cons x xs ih => simp [ih, List.append_assoc]

theorem chunksOf_join {α : Type} (n : ℕ) (hn : n ≠ 0) (l : List α) :
    (chunksOf n l).flatten = l := by
  generalize hk : l.length = k
  induction k using Nat.strong_induction_on generalizing l with
  | _ k ih =>
    rw [chunksOf.eq_def]
    split
    · omega
    · cases l with
      | nil => simp
      | cons x xs =>
        simp only [List.flatten_cons]
        simp only [List.length_cons] at hk
        have hlt : ((x :: xs).drop n).length < k := by
          simp only [List.length_drop, List.length_cons]
          omega
        rw [ih _ hlt _ rfl]
        exact List.take_append_drop n (x :: xs)

/-- Streaming 1 MiB chunks through the digest absorbs exactly the whole
file, so `sha256_hex` equals the one-shot digest of the file. -/
theorem sha256_hex_eq_whole (file : List ℕ) :
    sha256_hex file = sha256Hexdigest file := by
  unfold sha256_hex
  rw [foldl_append_eq_join, List.nil_append, chunksOf_join _ (by norm_num)]

theorem toBytesBE_length (n : ℕ) : ∀ x : ℕ, (toBytesBE n x).length = n := by
  induction n with
  | zero => intro x; rfl
  | succ m ih => intro x; simp [toBytesBE, ih]

theorem sha256Bytes_length (msg : List ℕ) : (sha256Bytes msg).length = 32 := by
  unfold sha256Bytes
  simp [toBytesBE_length]

theorem bytesToHex_length (bs : List ℕ) :
    (bytesToHex bs).length = 2 * bs.length := by
  induction bs with
  | nil => rfl
  | cons b bs ih =>
    have h : (bytesToHex (b :: bs)).length = (bytesToHex bs).length + 2 := rfl
    simp only [h, ih, List.length_cons]
    omega

theorem hexChar_mem_hexDigits (k : ℕ) : hexChar k ∈ hexDigits := by
  unfold hexChar
  split <;> decide

theorem mem_bytesToHex (bs : List ℕ) :
    ∀ c ∈ (bytesToHex bs).data, c ∈ hexDigits := by
  induction bs with
  | nil => intro c hc; simp [bytesToHex] at hc
  | cons b bs ih =>
    intro c hc
    have h : (bytesToHex (b :: bs)).data =
        hexChar (b / 16 % 16) :: hexChar (b % 16) :: (bytesToHex bs).data := rfl
    rw [h] at hc
    simp only [List.mem_cons] at hc
    rcases hc with hc | hc | hc
    · exact hc ▸ hexChar_mem_hexDigits _
    · exact hc ▸ hexChar_mem_hexDigits _
    · exact ih c hc

theorem sha256Hexdigest_length (msg : List ℕ) :
    (sha256Hexdigest msg).length = 64 := by
  unfold sha256Hexdigest
  rw [bytesToHex_length, sha256Bytes_length]

/-- C3 (counterexample): in a successful concrete run, the emitted
manifest has no `sha256` entry for the mint rendition nor for the
thumbnail rendition, so the manifest does not contain a content hash
per file. -/
theorem manifest_missing_rendition_hashes :
    (pyMain sampleArgs sampleImg [] [] [] "t").2 =
      .ok (successResult sampleArgs sampleImg [] [] [] "t" "image/png") ∧
    jget (.jobj (successResult sampleArgs sampleImg [] [] [] "t" "image/png"))
      ["meta", "mint", "sha256"] = none ∧
    jget (.jobj (successResult sampleArgs sampleImg [] [] [] "t" "image/png"))
      ["meta", "thumbnail", "sha256"] = none :=
  ⟨rfl, rfl, rfl⟩

/-- C3 (amended): the streaming hasher reads the file in fixed 1 MiB
chunks, absorbing exactly the whole contents, and returns the 64-char
lowercase hex SHA-256 digest — but the pipeline never invokes it: the
manifest carries a hash only for the original file (computed in one
shot over the full contents), and no hash for either rendition. -/
theorem hasher_streaming_and_manifest (file oB mB tB : List ℕ) (args : Args)
    (img : PILImage) (now mime : String)
    (hm : List.lookup (pyUpper (img.format.getD "")) ALLOWED_MIME = some mime)
    (hw : 1 ≤ img.width) (hh : 1 ≤ img.height) :
    sha256_hex file = sha256Hexdigest file ∧
    (sha256_hex file).length = 64 ∧
    (∀ c ∈ (sha256_hex file).data, c ∈ hexDigits) ∧
    (pyMain args img oB mB tB now).2 = .ok (successResult args img oB mB tB now mime) ∧
    jget (.jobj (successResult args img oB mB tB now mime)) ["meta", "original", "sha256"]
      = some (.jstr (sha256Hexdigest oB)) ∧
    jget (.jobj (successResult args img oB mB tB now mime)) ["meta", "mint", "sha256"]
      = none ∧
    jget (.jobj (successResult args img oB mB tB now mime)) ["meta", "thumbnail", "sha256"]
      = none := by
  have heq := pyMain_success args img oB mB tB now mime hm hw hh
  refine ⟨sha256_hex_eq_whole file, ?_, ?_, by rw [heq], ?_, ?_, ?_⟩
  · rw [sha256_hex_eq_whole]; exact sha256Hexdigest_length file
  · intro c hc
    rw [sha256_hex_eq_whole] at hc
    exact mem_bytesToHex _ c hc
  · by_cases hstem : pyStrip (splitextStem (pyBasename (absPath args.input))) = "" <;>
      simp [successResult, buildMeta, buildFiles, jget, lookupJ, hstem]
  · by_cases hstem : pyStrip (splitextStem (pyBasename (absPath args.input))) = "" <;>
      simp [successResult, buildMeta, buildFiles, jget, lookupJ, hstem]
  · by_cases hstem : pyStrip (splitextStem (pyBasename (absPath args.input))) = "" <;>
      simp [successResult, buildMeta, buildFiles, jget, lookupJ, hstem]

theorem hasher_streaming_and_manifest_witness :
    (List.lookup (pyUpper ((some "PNG").getD "")) ALLOWED_MIME = some "image/png" ∧
     1 ≤ sampleImg.width ∧ 1 ≤ sampleImg.height) ∧
    (sha256_hex [97] = sha256Hexdigest [97] ∧
     (sha256_hex [97]).length = 64 ∧
     (∀ c ∈ (sha256_hex [97]).data, c ∈ hexDigits) ∧
     (pyMain sampleArgs sampleImg [] [] [] "t").2 =
       .ok (successResult sampleArgs sampleImg [] [] [] "t" "image/png") ∧
     jget (.jobj (successResult sampleArgs sampleImg [] [] [] "t" "image/png"))
       ["meta", "original", "sha256"] = some (.jstr (sha256Hexdigest [])) ∧
     jget (.jobj (successResult sampleArgs sampleImg [] [] [] "t" "image/png"))
       ["meta", "mint", "sha256"] = none ∧
     jget (.jobj (successResult sampleArgs sampleImg [] [] [] "t" "image/png"))
       ["meta", "thumbnail", "sha256"] = none) :=
  ⟨⟨rfl, by decide, by decide⟩,
   hasher_streaming_and_manifest [97] [] [] [] sampleArgs sampleImg "t" "image/png"
     rfl (by decide) (by decide)⟩

/-- C4 (counterexample): an input whose format is unsupported and whose
width is 0 fails with the unsupported-format error, not with the
invalid-dimensions error, although `width < 1` holds — so
"`InvalidDimensionsError` exactly when width or height < 1" is false as
stated. -/
theorem validator_exactly_when_counterexample :
    (pyMain sampleArgs sampleBadImg [] [] [] "t").2 =
      .error (unsupportedFormatMsg "BMP") ∧
    sampleBadImg.width < 1 ∧
    unsupportedFormatMsg "BMP" ≠ invalidDimensionsMsg :=
  ⟨rfl, by decide, unsupportedFormatMsg_ne "BMP"⟩

/-- C4 (amended): the run fails with the unsupported-format error
exactly when the uppercased format tag is outside the allow-list; it
fails with the invalid-dimensions error exactly when the format is
allowed AND a dimension is below 1 (the format check runs first); the
two error messages are distinct. -/
theorem validator_error_conditions (args : Args) (img : PILImage)
    (oB mB tB : List ℕ) (now : String) :
    ((pyMain args img oB mB tB now).2 =
        .error (unsupportedFormatMsg (pyUpper (img.format.getD ""))) ↔
      List.lookup (pyUpper (img.format.getD "")) ALLOWED_MIME = none) ∧
    ((pyMain args img oB mB tB now).2 = .error invalidDimensionsMsg ↔
      (List.lookup (pyUpper (img.format.getD "")) ALLOWED_MIME ≠ none ∧
        (img.width < 1 ∨ img.height < 1))) ∧
    unsupportedFormatMsg (pyUpper (img.format.getD "")) ≠ invalidDimensionsMsg := by
  cases hlook : List.lookup (pyUpper (img.format.getD "")) ALLOWED_MIME with
  | none =>
    have heq : (pyMain args img oB mB tB now).2 =
        .error (unsupportedFormatMsg (pyUpper (img.format.getD ""))) := by
      simp only [pyMain, hlook]
    refine ⟨⟨fun _ => rfl, fun _ => heq⟩, ⟨?_, ?_⟩, unsupportedFormatMsg_ne _⟩
    · intro h
      rw [heq] at h
      simp only [Except.error.injEq] at h
      exact absurd h (unsupportedFormatMsg_ne _)
    · rintro ⟨hne, _⟩
      exact absurd rfl hne
  | some mime =>
    by_cases hdim : img.width < 1 ∨ img.height < 1
    · have heq : (pyMain args img oB mB tB now).2 = .error invalidDimensionsMsg := by
        simp only [pyMain, hlook, if_pos hdim]
      refine ⟨⟨?_, ?_⟩, ⟨fun _ => ⟨by simp [hlook], hdim⟩, fun _ => heq⟩,
        unsupportedFormatMsg_ne _⟩
      · intro h
        rw [heq] at h
        simp only [Except.error.injEq] at h
        exact absurd h.symm (unsupportedFormatMsg_ne _)
      · intro h
        exact Option.noConfusion h
    · have heq := pyMain_success args img oB mB tB now mime hlook (by omega) (by omega)
      have h2 : (pyMain args img oB mB tB now).2 =
          .ok (successResult args img oB mB tB now mime) := by rw [heq]
      refine ⟨⟨?_, ?_⟩, ⟨?_, ?_⟩, unsupportedFormatMsg_ne _⟩
      · intro h
        rw [h2] at h
        exact Except.noConfusion h
      · intro h
        exact Option.noConfusion h
      · intro h
        rw [h2] at h
        exact Except.noConfusion h
      · rintro ⟨_, hdim2⟩
        exact absurd hdim2 hdim

/-- C6: when the decoded format is not in the allow-list, the run
produces only the directory-creation effect — no `Image.save` call and
no stdout output — and fails with the unsupported-format error. -/
theorem unsupported_format_no_writes (args : Args) (img : PILImage)
    (oB mB tB : List ℕ) (now : String)
    (hfmt : List.lookup (pyUpper (img.format.getD "")) ALLOWED_MIME = none) :
    pyMain args img oB mB tB now =
      ([.mkdirs (absPath args.outDir)],
       .error (unsupportedFormatMsg (pyUpper (img.format.getD "")))) ∧
    savesOf (pyMain args img oB mB tB now).1 = [] ∧
    stdoutOf (pyMain args img oB mB tB now).1 = [] := by
  have heq : pyMain args img oB mB tB now =
      ([.mkdirs (absPath args.outDir)],
       .error (unsupportedFormatMsg (pyUpper (img.format.getD "")))) := by
    simp only [pyMain, hfmt]
  refine ⟨heq, ?_, ?_⟩ <;> rw [heq] <;> rfl

theorem unsupported_format_no_writes_witness :
    (List.lookup (pyUpper ((some "BMP").getD "")) ALLOWED_MIME = none) ∧
    (pyMain sampleArgs sampleBadImg [] [] [] "t" =
      ([.mkdirs (absPath sampleArgs.outDir)],
       .error (unsupportedFormatMsg (pyUpper ((some "BMP").getD "")))) ∧
     savesOf (pyMain sampleArgs sampleBadImg [] [] [] "t").1 = [] ∧
     stdoutOf (pyMain sampleArgs sampleBadImg [] [] [] "t").1 = []) :=
  ⟨rfl, unsupported_format_no_writes sampleArgs sampleBadImg [] [] [] "t" rfl⟩

/-- C7: with the imaging dependency missing the process exits with code
2 and empty stdout; on pipeline success it prints exactly the JSON
manifest and exits 0; on any pipeline error the message goes to stderr,
nothing is printed to stdout, and the exit code is 1. -/
theorem process_exit_and_output (pillowErr : String) (args : Args) (img : PILImage)
    (oB mB tB : List ℕ) (now : String) :
    runScript false pillowErr args img oB mB tB now =
      ⟨2, [], ["Failed to import Pillow (PIL): " ++ pillowErr]⟩ ∧
    (∀ r, (pyMain args img oB mB tB now).2 = .ok r →
      runScript true pillowErr args img oB mB tB now = ⟨0, [.jobj r], []⟩) ∧
    (∀ e, (pyMain args img oB mB tB now).2 = .error e →
      runScript true pillowErr args img oB mB tB now = ⟨1, [], [e]⟩) := by
  refine ⟨rfl, ?_, ?_⟩
  · intro r hr
    cases hlook : List.lookup (pyUpper (img.format.getD "")) ALLOWED_MIME with
    | none =>
      have h2 : (pyMain args img oB mB tB now).2 =
          .error (unsupportedFormatMsg (pyUpper (img.format.getD ""))) := by
        simp only [pyMain, hlook]
      rw [h2] at hr
      exact Except.noConfusion hr
    | some mime =>
      by_cases hdim : img.width < 1 ∨ img.height < 1
      · have h2 : (pyMain args img oB mB tB now).2 = .error invalidDimensionsMsg := by
          simp only [pyMain, hlook, if_pos hdim]
        rw [h2] at hr
        exact Except.noConfusion hr
      · have heq := pyMain_success args img oB mB tB now mime hlook (by omega) (by omega)
        have h2 : (pyMain args img oB mB tB now).2 =
            .ok (successResult args img oB mB tB now mime) := by rw [heq]
        rw [h2] at hr
        obtain rfl : successResult args img oB mB tB now mime = r := Except.ok.inj hr
        simp only [runScript, heq]
        rfl
  · intro e he
    cases hlook : List.lookup (pyUpper (img.format.getD "")) ALLOWED_MIME with
    | none =>
      have heq : pyMain args img oB mB tB now =
          ([.mkdirs (absPath args.outDir)],
           .error (unsupportedFormatMsg (pyUpper (img.format.getD "")))) := by
        simp only [pyMain, hlook]
      have h2 : (pyMain args img oB mB tB now).2 =
          .error (unsupportedFormatMsg (pyUpper (img.format.getD ""))) := by rw [heq]
      rw [h2] at he
      obtain rfl : unsupportedFormatMsg (pyUpper (img.format.getD "")) = e :=
        Except.error.inj he
      simp only [runScript, heq]
      rfl
    | some mime =>
      by_cases hdim : img.width < 1 ∨ img.height < 1
      · have heq : pyMain args img oB mB tB now =
            ([.mkdirs (absPath args.outDir)], .error invalidDimensionsMsg) := by
          simp only [pyMain, hlook, if_pos hdim]
        have h2 : (pyMain args img oB mB tB now).2 = .error invalidDimensionsMsg := by
          rw [heq]
        rw [h2] at he
        obtain rfl : invalidDimensionsMsg = e := Except.error.inj he
        simp only [runScript, heq]
        rfl
      · have heq := pyMain_success args img oB mB tB now mime hlook (by omega) (by omega)
        have h2 : (pyMain args img oB mB tB now).2 =
            .ok (successResult args img oB mB tB now mime) := by rw [heq]
        rw [h2] at he
        exact Except.noConfusion he

theorem process_exit_and_output_witness :
    ((pyMain sampleArgs sampleImg [] [] [] "t").2 =
      .ok (successResult sampleArgs sampleImg [] [] [] "t" "image/png")) ∧
    runScript false "no module" sampleArgs sampleImg [] [] [] "t" =
      ⟨2, [], ["Failed to import Pillow (PIL): " ++ "no module"]⟩ ∧
    runScript true "no module" sampleArgs sampleImg [] [] [] "t" =
      ⟨0, [.jobj (successResult sampleArgs sampleImg [] [] [] "t" "image/png")], []⟩ :=
  ⟨rfl,
   (process_exit_and_output "no module" sampleArgs sampleImg [] [] [] "t").1,
   (process_exit_and_output "no module" sampleArgs sampleImg [] [] [] "t").2.1
     (successResult sampleArgs sampleImg [] [] [] "t" "image/png") rfl⟩

/-- C1: on a valid input the pipeline succeeds, the manifest records
`min(configured_max, max(w, h))` as width and height for both the mint
and the thumbnail rendition, and the two encoded images are saved with
exactly those side lengths. -/
theorem pipeline_rendition_side_formula (args : Args) (img : PILImage)
    (oB mB tB : List ℕ) (now mime : String)
    (hm : List.lookup (pyUpper (img.format.getD "")) ALLOWED_MIME = some mime)
    (hw : 1 ≤ img.width) (hh : 1 ≤ img.height)
    (hmx : 1 ≤ args.mintMaxSide) (htx : 1 ≤ args.thumbMaxSide) :
    (pyMain args img oB mB tB now).2 = .ok (successResult args img oB mB tB now mime) ∧
    jget (.jobj (successResult args img oB mB tB now mime)) ["meta", "mint", "width"] =
      some (.jint (min args.mintMaxSide ((max img.width img.height : ℕ) : ℤ))) ∧
    jget (.jobj (successResult args img oB mB tB now mime)) ["meta", "mint", "height"] =
      some (.jint (min args.mintMaxSide ((max img.width img.height : ℕ) : ℤ))) ∧
    jget (.jobj (successResult args img oB mB tB now mime)) ["meta", "thumbnail", "width"] =
      some (.jint (min args.thumbMaxSide ((max img.width img.height : ℕ) : ℤ))) ∧
    jget (.jobj (successResult args img oB mB tB now mime)) ["meta", "thumbnail", "height"] =
      some (.jint (min args.thumbMaxSide ((max img.width img.height : ℕ) : ℤ))) ∧
    savesOf (pyMain args img oB mB tB now).1 =
      [⟨pathJoin (absPath args.outDir) "mint.webp", "WEBP", args.quality,
        min args.mintMaxSide ((max img.width img.height : ℕ) : ℤ),
        min args.mintMaxSide ((max img.width img.height : ℕ) : ℤ)⟩,
       ⟨pathJoin (absPath args.outDir) "thumb.webp", "WEBP", args.quality,
        min args.thumbMaxSide ((max img.width img.height : ℕ) : ℤ),
        min args.thumbMaxSide ((max img.width img.height : ℕ) : ℤ)⟩] := by
  have heq := pyMain_success args img oB mB tB now mime hm hw hh
  refine ⟨by rw [heq], ?_, ?_, ?_, ?_, by rw [heq]; rfl⟩ <;>
    by_cases hstem : pyStrip (splitextStem (pyBasename (absPath args.input))) = "" <;>
      simp [successResult, buildMeta, buildFiles, jget, lookupJ, hstem]

/-- C5: the manifest always records the fixed literal `0.85` as the
mint quality, for every value of `--quality`, while both `Image.save`
calls are issued with the actual `--quality` value. -/
theorem manifest_quality_literal (args : Args) (img : PILImage)
    (oB mB tB : List ℕ) (now mime : String)
    (hm : List.lookup (pyUpper (img.format.getD "")) ALLOWED_MIME = some mime)
    (hw : 1 ≤ img.width) (hh : 1 ≤ img.height) :
    (pyMain args img oB mB tB now).2 = .ok (successResult args img oB mB tB now mime) ∧
    jget (.jobj (successResult args img oB mB tB now mime)) ["meta", "mint", "quality"] =
      some (.jrat 0.85) ∧
    (savesOf (pyMain args img oB mB tB now).1).map SaveCall.quality =
      [args.quality, args.quality] := by
  have heq := pyMain_success args img oB mB tB now mime hm hw hh
  refine ⟨by rw [heq], ?_, by rw [heq]; rfl⟩
  by_cases hstem : pyStrip (splitextStem (pyBasename (absPath args.input))) = "" <;>
    simp [successResult, buildMeta, buildFiles, jget, lookupJ, hstem]

/-- C9: the manifest's `title` equals the input filename's basename
with the extension stripped and whitespace trimmed, and the key is
present exactly when that stem is non-empty. -/
theorem manifest_title_stem (args : Args) (img : PILImage)
    (oB mB tB : List ℕ) (now mime : String)
    (hm : List.lookup (pyUpper (img.format.getD "")) ALLOWED_MIME = some mime)
    (hw : 1 ≤ img.width) (hh : 1 ≤ img.height) :
    (pyMain args img oB mB tB now).2 = .ok (successResult args img oB mB tB now mime) ∧
    jget (.jobj (successResult args img oB mB tB now mime)) ["meta", "title"] =
      (if pyStrip (splitextStem (pyBasename (absPath args.input))) = "" then none
       else some (.jstr (pyStrip (splitextStem (pyBasename (absPath args.input)))))) := by
  have heq := pyMain_success args img oB mB tB now mime hm hw hh
  refine ⟨by rw [heq], ?_⟩
  by_cases hstem : pyStrip (splitextStem (pyBasename (absPath args.input))) = "" <;>
    simp [successResult, buildMeta, buildFiles, jget, lookupJ, hstem]

theorem pipeline_rendition_side_formula_witness :
    (List.lookup (pyUpper (sampleImg.format.getD "")) ALLOWED_MIME = some "image/png" ∧
     1 ≤ sampleImg.width ∧ 1 ≤ sampleImg.height ∧
     1 ≤ sampleArgs.mintMaxSide ∧ 1 ≤ sampleArgs.thumbMaxSide) ∧
    ((pyMain sampleArgs sampleImg [] [] [] "t").2 =
       .ok (successResult sampleArgs sampleImg [] [] [] "t" "image/png") ∧
     jget (.jobj (successResult sampleArgs sampleImg [] [] [] "t" "image/png"))
       ["meta", "mint", "width"] =
       some (.jint (min sampleArgs.mintMaxSide
         ((max sampleImg.width sampleImg.height : ℕ) : ℤ))) ∧
     jget (.jobj (successResult sampleArgs sampleImg [] [] [] "t" "image/png"))
       ["meta", "mint", "height"] =
       some (.jint (min sampleArgs.mintMaxSide
         ((max sampleImg.width sampleImg.height : ℕ) : ℤ))) ∧
     jget (.jobj (successResult sampleArgs sampleImg [] [] [] "t" "image/png"))
       ["meta", "thumbnail", "width"] =
       some (.jint (min sampleArgs.thumbMaxSide
         ((max sampleImg.width sampleImg.height : ℕ) : ℤ))) ∧
     jget (.jobj (successResult sampleArgs sampleImg [] [] [] "t" "image/png"))
       ["meta", "thumbnail", "height"] =
       some (.jint (min sampleArgs.thumbMaxSide
         ((max sampleImg.width sampleImg.height : ℕ) : ℤ))) ∧
     savesOf (pyMain sampleArgs sampleImg [] [] [] "t").1 =
       [⟨pathJoin (absPath sampleArgs.outDir) "mint.webp", "WEBP", sampleArgs.quality,
         min sampleArgs.mintMaxSide ((max sampleImg.width sampleImg.height : ℕ) : ℤ),
         min sampleArgs.mintMaxSide ((max sampleImg.width sampleImg.height : ℕ) : ℤ)⟩,
        ⟨pathJoin (absPath sampleArgs.outDir) "thumb.webp", "WEBP", sampleArgs.quality,
         min sampleArgs.thumbMaxSide ((max sampleImg.width sampleImg.height : ℕ) : ℤ),
         min sampleArgs.thumbMaxSide ((max sampleImg.width sampleImg.height : ℕ) : ℤ)⟩]) :=
  ⟨⟨rfl, by decide, by decide, by decide, by decide⟩,
   pipeline_rendition_side_formula sampleArgs sampleImg [] [] [] "t" "image/png"
     rfl (by decide) (by decide) (by decide) (by decide)⟩

theorem manifest_quality_literal_witness :
    (List.lookup (pyUpper (sampleImg.format.getD "")) ALLOWED_MIME = some "image/png" ∧
     1 ≤ sampleImg.width ∧ 1 ≤ sampleImg.height) ∧
    ((pyMain sampleArgs sampleImg [] [] [] "t").2 =
       .ok (successResult sampleArgs sampleImg [] [] [] "t" "image/png") ∧
     jget (.jobj (successResult sampleArgs sampleImg [] [] [] "t" "image/png"))
       ["meta", "mint", "quality"] = some (.jrat 0.85) ∧
     (savesOf (pyMain sampleArgs sampleImg [] [] [] "t").1).map SaveCall.quality =
       [sampleArgs.quality, sampleArgs.quality]) :=
  ⟨⟨rfl, by decide, by decide⟩,
   manifest_quality_literal sampleArgs sampleImg [] [] [] "t" "image/png"
     rfl (by decide) (by decide)⟩

theorem manifest_title_stem_witness :
    (List.lookup (pyUpper (sampleImg.format.getD "")) ALLOWED_MIME = some "image/png" ∧
     1 ≤ sampleImg.width ∧ 1 ≤ sampleImg.height) ∧
    ((pyMain sampleArgs sampleImg [] [] [] "t").2 =
       .ok (successResult sampleArgs sampleImg [] [] [] "t" "image/png") ∧
     jget (.jobj (successResult sampleArgs sampleImg [] [] [] "t" "image/png"))
       ["meta", "title"] =
       (if pyStrip (splitextStem (pyBasename (absPath sampleArgs.input))) = "" then none
        else some (.jstr (pyStrip (splitextStem (pyBasename (absPath sampleArgs.input))))))) :=
  ⟨⟨rfl, by decide, by decide⟩,
   manifest_title_stem sampleArgs sampleImg [] [] [] "t" "image/png"
     rfl (by decide) (by decide)⟩

end ArtMint
